import Mathlib

set_option maxRecDepth 100000

/-!
Verification development for the Salesforce events integration service
(`src/main.py`).  The active revision of the file defines:

* `EventOut` — the flat normalized event record (pydantic model);
* `build_markdown_local` — the deterministic Markdown table renderer;
* `get_events` — the `/events` handler: token exchange, a cursor-following
  paginated fetch with a urllib3 `Retry(total=3, status_forcelist=[429, 500,
  502, 503, 504])` adapter, per-record normalization, and rendering;
* an earlier commented-out revision additionally defines
  `generate_markdown_with_watsonx`, the generative renderer with fallback to
  its own 9-column `build_markdown_local` (embedded here as
  `build_markdown_local_v1`).

Python strings are modelled as `List Char` (`Str`).  Network effects are
modelled by oracles: a page server is a function from URL and attempt index
to an outcome, and the generative backend is a function from batch index and
prompt to a result or an error message.  The `while url:` loop is bounded by
explicit fuel; exhausting the fuel is a distinguished error that stands for
non-termination of the source loop.
-/

/-- Python `str` modelled as a list of characters. -/
abbrev Str := List Char

deriving instance DecidableEq for Except

/-- Python truthiness coercion `x or ""` applied to an optional string:
`None` becomes the empty string, and an empty string stays empty. -/
def pyOr (v : Option Str) : Str := v.getD []

/-- Decidable substring test, Python `needle in s` / used for `any(x in msg ...)`. -/
def containsSub (needle : Str) : Str → Bool
  | [] => needle.isPrefixOf []
  | c :: cs => needle.isPrefixOf (c :: cs) || containsSub needle cs

/-- Occurrence count of a character in a string. -/
def countChar (a : Char) : Str → Nat
  | [] => 0
  | c :: cs => (if c = a then 1 else 0) + countChar a cs

/-- Python `sep.join(parts)`: the parts concatenated with the separator
between consecutive parts. -/
def pyJoin (sep : Str) : List Str → Str
  | [] => []
  | [x] => x
  | x :: xs => x ++ sep ++ pyJoin sep xs

/-- Models `s.replace("|", "\\|")`: every `|` is replaced by a backslash
followed by `|` (single-character needle, so a left-to-right scan). -/
def escPipe : Str → Str
  | [] => []
  | c :: cs => if c = '|' then '\\' :: '|' :: escPipe cs else c :: escPipe cs

/-- Models `s.replace("\n", " ")`: every newline becomes a single space. -/
def escNl : Str → Str
  | [] => []
  | c :: cs => (if c = '\n' then ' ' else c) :: escNl cs

/-- The cell transformation of `build_markdown_local`:
`str(val).replace("|", "\\|").replace("\n", " ")`. -/
def escapeCell (s : Str) : Str := escNl (escPipe s)

/-- Modelled from the spec: the inverse of the delimiter escaping, replacing
each escaped delimiter (backslash followed by `|`, leftmost first,
non-overlapping) by the delimiter character.  The source has no unescaper;
the round-trip property P5 of the spec requires this inverse. -/
def unescapeDelim : Str → Str
  | [] => []
  | [c] => [c]
  | c :: d :: cs =>
    if c = '\\' ∧ d = '|' then '|' :: unescapeDelim cs
    else c :: unescapeDelim (d :: cs)

/-- The pydantic output model `EventOut`: `id` is required, every other
field is `Optional[str]`. -/
structure EventOut where
  id : Str
  subject : Option Str := none
  owner_id : Option Str := none
  owner_name : Option Str := none
  what_id : Option Str := none
  what_name : Option Str := none
  account_id : Option Str := none
  account_name : Option Str := none
  appointment_status_c : Option Str := none
  start_datetime : Option Str := none
  end_datetime : Option Str := none
  description : Option Str := none
  created_by_name : Option Str := none
  created_by_id : Option Str := none
  last_modified_by_name : Option Str := none
  last_modified_by_id : Option Str := none
deriving DecidableEq

/-- The fixed 16-column header list of the active `build_markdown_local`. -/
def headerNames : List Str :=
  ["id".toList, "subject".toList, "owner_id".toList, "owner_name".toList,
   "what_id".toList, "what_name".toList, "account_id".toList,
   "account_name".toList, "appointment_status_c".toList,
   "start_datetime".toList, "end_datetime".toList, "description".toList,
   "created_by_name".toList, "created_by_id".toList,
   "last_modified_by_name".toList, "last_modified_by_id".toList]

/-- One Markdown table line: `"| " + " | ".join(cells) + " |"`. -/
def mdRow (cells : List Str) : Str :=
  "| ".toList ++ pyJoin " | ".toList cells ++ " |".toList

/-- The header line of the active renderer. -/
def headerLine : Str := mdRow headerNames

/-- The separator line: `"| " + " | ".join(["---"] * len(headers)) + " |"`. -/
def sepLine : Str := mdRow (List.replicate headerNames.length "---".toList)

/-- The escaped cells of one event, in header order (`getattr(e, h) or ""`
then the escape; `id` is a plain `str`, the rest are optional). -/
def eventCells (e : EventOut) : List Str :=
  [escapeCell e.id, escapeCell (pyOr e.subject), escapeCell (pyOr e.owner_id),
   escapeCell (pyOr e.owner_name), escapeCell (pyOr e.what_id),
   escapeCell (pyOr e.what_name), escapeCell (pyOr e.account_id),
   escapeCell (pyOr e.account_name), escapeCell (pyOr e.appointment_status_c),
   escapeCell (pyOr e.start_datetime), escapeCell (pyOr e.end_datetime),
   escapeCell (pyOr e.description), escapeCell (pyOr e.created_by_name),
   escapeCell (pyOr e.created_by_id), escapeCell (pyOr e.last_modified_by_name),
   escapeCell (pyOr e.last_modified_by_id)]

/-- The list `lines` built by `build_markdown_local` before the final join. -/
def mdLines (events : List EventOut) : List Str :=
  headerLine :: sepLine :: events.map (fun e => mdRow (eventCells e))

/-- The active 16-column local renderer `build_markdown_local`:
`"\n".join(lines)`. -/
def build_markdown_local (events : List EventOut) : Str :=
  pyJoin ['\n'] (mdLines events)

/-! ### The earlier revision's renderer pair

The first (commented-out) revision of `main.py` defines a 9-column
`build_markdown_local` and `generate_markdown_with_watsonx`, the generative
strategy with batching, a token-estimate ceiling, and fallback to the local
builder on recognized capacity errors. -/

/-- The 9-column header list of the earlier revision's `build_markdown_local`. -/
def headerNames9 : List Str :=
  ["id".toList, "subject".toList, "owner_id".toList, "owner_name".toList,
   "what_id".toList, "what_name".toList, "account_id".toList,
   "account_name".toList, "appointment_status_c".toList]

/-- Header line of the earlier revision's renderer. -/
def headerLine9 : Str := mdRow headerNames9

/-- Separator line of the earlier revision's renderer. -/
def sepLine9 : Str := mdRow (List.replicate headerNames9.length "---".toList)

/-- The escaped cells of one event restricted to the 9 columns. -/
def eventCells9 (e : EventOut) : List Str :=
  [escapeCell e.id, escapeCell (pyOr e.subject), escapeCell (pyOr e.owner_id),
   escapeCell (pyOr e.owner_name), escapeCell (pyOr e.what_id),
   escapeCell (pyOr e.what_name), escapeCell (pyOr e.account_id),
   escapeCell (pyOr e.account_name), escapeCell (pyOr e.appointment_status_c)]

/-- The earlier revision's 9-column `build_markdown_local`. -/
def build_markdown_local_v1 (events : List EventOut) : Str :=
  pyJoin ['\n']
    (headerLine9 :: sepLine9 :: events.map (fun e => mdRow (eventCells9 e)))

/-- Lowercase hexadecimal digit. -/
def hexDigit (n : Nat) : Char :=
  if n < 10 then Char.ofNat (48 + n) else Char.ofNat (87 + n)

/-- Four lowercase hexadecimal digits, as in `json.dumps` unicode escapes. -/
def hex4 (n : Nat) : Str :=
  [hexDigit (n / 4096 % 16), hexDigit (n / 256 % 16),
   hexDigit (n / 16 % 16), hexDigit (n % 16)]

/-- Character escaping of `json.dumps` with its default `ensure_ascii=True`:
the two-character escapes for quote, backslash and common controls, `\u00xx`
escapes for other characters outside the printable ASCII range, and surrogate
pairs above the basic multilingual plane. -/
def jsonEscChar (c : Char) : Str :=
  if c = '"' then ['\\', '"']
  else if c = '\\' then ['\\', '\\']
  else if c = '\n' then ['\\', 'n']
  else if c = '\r' then ['\\', 'r']
  else if c = '\t' then ['\\', 't']
  else if c = Char.ofNat 8 then ['\\', 'b']
  else if c = Char.ofNat 12 then ['\\', 'f']
  else if c.toNat < 32 ∨ 127 ≤ c.toNat then
    if c.toNat < 65536 then '\\' :: 'u' :: hex4 c.toNat
    else
      ('\\' :: 'u' :: hex4 (55296 + (c.toNat - 65536) / 1024)) ++
      ('\\' :: 'u' :: hex4 (56320 + (c.toNat - 65536) % 1024))
  else [c]

/-- `json.dumps` of a string value. -/
def jsonStr (s : Str) : Str := '"' :: (s.map jsonEscChar).flatten ++ ['"']

/-- `json.dumps` of an optional string: `None` serializes as `null`. -/
def jsonOpt (v : Option Str) : Str :=
  match v with
  | none => "null".toList
  | some s => jsonStr s

/-- One member `"key":value` of a serialized object. -/
def jsonMember (key : Str) (v : Str) : Str := jsonStr key ++ ':' :: v

/-- `json.dumps` of the dict `{k: getattr(e, k) for k in headers}` built per
event by the generative strategy, with `separators=(",", ":")` and keys in
the 9-column header order. -/
def eventJson9 (e : EventOut) : Str :=
  '\x7b' ::
    pyJoin [',']
      [jsonMember "id".toList (jsonStr e.id),
       jsonMember "subject".toList (jsonOpt e.subject),
       jsonMember "owner_id".toList (jsonOpt e.owner_id),
       jsonMember "owner_name".toList (jsonOpt e.owner_name),
       jsonMember "what_id".toList (jsonOpt e.what_id),
       jsonMember "what_name".toList (jsonOpt e.what_name),
       jsonMember "account_id".toList (jsonOpt e.account_id),
       jsonMember "account_name".toList (jsonOpt e.account_name),
       jsonMember "appointment_status_c".toList (jsonOpt e.appointment_status_c)]
    ++ ['\x7d']

/-- `json.dumps(event_data, separators=(",", ":"))` for a batch. -/
def jsonEventList (events : List EventOut) : Str :=
  '[' :: pyJoin [','] (events.map eventJson9) ++ [']']

/-- The fixed prompt prefix of the generative strategy. -/
def promptPrefix : Str :=
  ("Generate a Markdown table with the following columns: id, subject, " ++
   "owner_id, owner_name, what_id, what_name, account_id, account_name, " ++
   "appointment_status_c. Use the data below in JSON format:\n").toList

/-- The prompt sent for one batch. -/
def mkPrompt (batch : List EventOut) : Str := promptPrefix ++ jsonEventList batch

/-- `estimate_tokens`: one token per four characters, integer division. -/
def estimate_tokens (s : Str) : Nat := s.length / 4

/-- Python `str.strip()`: whitespace removed from both ends. -/
def pyStrip (s : Str) : Str :=
  ((s.dropWhile Char.isWhitespace).reverse.dropWhile Char.isWhitespace).reverse

/-- Python `s.split("\n")`. -/
def splitNl : Str → List Str
  | [] => [[]]
  | c :: cs =>
    if c = '\n' then [] :: splitNl cs
    else
      match splitNl cs with
      | [] => [[c]]
      | l :: ls => (c :: l) :: ls

/-- The per-batch post-processing: if the stripped generation does not start
with `"| id |"`, prepend the 9-column header and separator lines. -/
def ensureHeader (s : Str) : Str :=
  if "| id |".toList.isPrefixOf s then s
  else headerLine9 ++ '\n' :: sepLine9 ++ '\n' :: s

/-- The capacity/quota/inactive marker test:
`any(x in msg for x in ["invalid_instance_status_error", "cannot exceed the total tokens limit"])`. -/
def hasCapacityMarker (m : Str) : Bool :=
  containsSub "invalid_instance_status_error".toList m ||
  containsSub "cannot exceed the total tokens limit".toList m

/-- The final stitching of per-batch tables: keep the first two lines of the
first table, then append every table's lines from the third on, in batch
order, and join with newlines. -/
def stitchTables (tables : List Str) : Str :=
  match tables with
  | [] => []
  | t0 :: _ =>
    pyJoin ['\n']
      ((splitNl t0).take 2 ++ (tables.map (fun t => (splitNl t).drop 2)).flatten)

/-- The values taken by `i` in `for i in range(0, n, batch_size)` with
`batch_size = 1000`: the multiples of 1000 below `n`, in order. -/
def batchStarts (n : Nat) : List Nat :=
  (List.range ((n + 999) / 1000)).map (· * 1000)

/-- The batching loop of `generate_markdown_with_watsonx`, iterating over
the remaining batch start indices.  `backend i p` models `mi.generate_text`
for batch number `i` with prompt `p`, returning the generated text or
raising an error message.  Before each call the estimated prompt size is
checked against the 8192-token ceiling (fall back to the local builder for
the whole input); a backend error with a recognized capacity marker also
falls back, any other backend error is fatal.  After the loop, stitch the
collected tables, or render locally when none were collected. -/
def genIter (backend : Nat → Str → Except Str Str) (events : List EventOut) :
    List Nat → List Str → Except Str Str
  | [], tables =>
    if tables = [] then .ok (build_markdown_local_v1 events)
    else .ok (stitchTables tables)
  | i :: rest, tables =>
    let prompt := mkPrompt ((events.drop i).take 1000)
    if 8192 < estimate_tokens prompt then .ok (build_markdown_local_v1 events)
    else
      match backend (i / 1000) prompt with
      | .ok txt => genIter backend events rest (tables ++ [ensureHeader (pyStrip txt)])
      | .error m =>
        if hasCapacityMarker m then .ok (build_markdown_local_v1 events)
        else .error ("Watsonx.ai failure: ".toList ++ m)

/-- The earlier revision's `generate_markdown_with_watsonx`. -/
def generate_markdown_with_watsonx (backend : Nat → Str → Except Str Str)
    (events : List EventOut) : Except Str Str :=
  genIter backend events (batchStarts events.length) []

/-! ### Fetching, retry and normalization

The `/events` handler authenticates, then walks the paginated query result
with a `requests.Session` mounted with
`Retry(total=3, backoff_factor=1, status_forcelist=[429, 500, 502, 503, 504])`,
normalizes each remote record into an `EventOut`, and renders.  urllib3's
`total=3` counts *retries*, so a single `sess.get` performs up to four
attempts; a response whose status is in the forcelist, or a network error,
consumes a retry, and exhaustion raises (modelled `Err.maxRetry`).
`resp.raise_for_status()` raises on any 4xx/5xx status that survived the
adapter.  Any exception inside the handler is caught by the final
`except Exception` and becomes `HTTPException(500, "Failed to fetch events")`. -/

/-- A related-object slot of a remote record: the key may be absent, its
value may be JSON `null`, or it may be an object whose `Name` attribute is
absent-or-null (`none`) or a string. -/
inductive SubVal where
  | missing
  | null
  | obj (name : Option Str)
deriving DecidableEq

/-- Models `(rec.get(k) or <empty dict>).get("Name")`: an absent key and a
null value both coerce to the empty dict, whose `Name` lookup is `None`; an
object yields its `Name` attribute if any. -/
def subName : SubVal → Option Str
  | .missing => none
  | .null => none
  | .obj name => name

/-- A remote record of one query page: `Id?` is `none` when the `Id` key is
absent (the handler's `rec["Id"]` would raise `KeyError`); the other direct
fields use `rec.get(...)`, and the five related-object slots are `SubVal`s. -/
structure RemoteRecord where
  Id? : Option Str
  Subject : Option Str := none
  OwnerId : Option Str := none
  WhatId : Option Str := none
  AccountId : Option Str := none
  Appointment_Status__c : Option Str := none
  StartDateTime : Option Str := none
  EndDateTime : Option Str := none
  Description : Option Str := none
  CreatedById : Option Str := none
  LastModifiedById : Option Str := none
  Owner : SubVal := .missing
  What : SubVal := .missing
  Account : SubVal := .missing
  CreatedBy : SubVal := .missing
  LastModifiedBy : SubVal := .missing
deriving DecidableEq

/-- One page of the query response: `records` defaults to the empty list
(`page.get("records", [])`) and `nextRecordsUrl` to `None`. -/
structure Page where
  records : List RemoteRecord := []
  nextRecordsUrl : Option Str := none
deriving DecidableEq

/-- The errors a request execution can raise.  All of them are caught by the
handler's `except Exception` block. -/
inductive Err where
  | maxRetry
  | http (status : Nat) (body : Str)
  | keyErrorId
  | fuel
deriving DecidableEq

/-- An HTTP response from the upstream query endpoint: its status, raw body
and parsed JSON page. -/
structure HttpResp where
  status : Nat
  body : Str
  page : Page := {}
deriving DecidableEq

/-- Outcome of one GET attempt: a network error or a response. -/
inductive GetOutcome where
  | net
  | resp (r : HttpResp)
deriving DecidableEq

/-- The retryable statuses: `status_forcelist=[429, 500, 502, 503, 504]`. -/
def retryableStatus (s : Nat) : Bool :=
  s = 429 || s = 500 || s = 502 || s = 503 || s = 504

/-- The retry loop of the mounted adapter.  `left` is urllib3's remaining
retry budget (initially `total=3`) and `i` the attempt index into the
per-URL outcome oracle `r`; a network error or a forcelist status consumes a
retry, exhaustion raises `MaxRetryError`. -/
def sessGetGo (r : Nat → GetOutcome) : Nat → Nat → Except Err HttpResp
  | 0, i =>
    match r i with
    | .net => .error .maxRetry
    | .resp resp =>
      if retryableStatus resp.status then .error .maxRetry else .ok resp
  | left + 1, i =>
    match r i with
    | .net => sessGetGo r left (i + 1)
    | .resp resp =>
      if retryableStatus resp.status then sessGetGo r left (i + 1) else .ok resp

/-- `sess.get(url, ...)` with the mounted `Retry(total=3, ...)` adapter. -/
def sessGet (r : Nat → GetOutcome) : Except Err HttpResp := sessGetGo r 3 0

/-- One page fetch: the retried GET followed by `resp.raise_for_status()`
(which raises for any status of 400 or above) and `resp.json()`. -/
def getPage (r : Nat → GetOutcome) : Except Err Page :=
  match sessGet r with
  | .error e => .error e
  | .ok resp =>
    if 400 ≤ resp.status then .error (.http resp.status resp.body)
    else .ok resp.page

/-- Normalization of one remote record into an `EventOut` — the body of the
`for rec in page.get("records", [])` loop.  `rec["Id"]` raises on an absent
key; every other field is a tolerant `get`. -/
def normalizeE (rec : RemoteRecord) : Except Err EventOut :=
  match rec.Id? with
  | none => .error .keyErrorId
  | some i =>
    .ok { id := i
          subject := rec.Subject
          owner_id := rec.OwnerId
          owner_name := subName rec.Owner
          what_id := rec.WhatId
          what_name := subName rec.What
          account_id := rec.AccountId
          account_name := subName rec.Account
          appointment_status_c := rec.Appointment_Status__c
          start_datetime := rec.StartDateTime
          end_datetime := rec.EndDateTime
          description := rec.Description
          created_by_name := subName rec.CreatedBy
          created_by_id := rec.CreatedById
          last_modified_by_name := subName rec.LastModifiedBy
          last_modified_by_id := rec.LastModifiedById }

/-- Normalization of a record list in order, stopping at the first raising
record, as the `for` loop does. -/
def normalizeAll : List RemoteRecord → Except Err (List EventOut)
  | [] => .ok []
  | r :: rs =>
    match normalizeE r with
    | .error e => .error e
    | .ok ev =>
      match normalizeAll rs with
      | .error e => .error e
      | .ok evs => .ok (ev :: evs)

/-- Cursor resolution, `url = f"{inst}{nxt}" if nxt else None`: an absent or
empty cursor is falsy and ends the loop; any other cursor — root-relative or
absolute — is prefixed with the instance URL. -/
def resolveNext (inst : Str) (nxt : Option Str) : Option Str :=
  match nxt with
  | none => none
  | some s => if s = [] then none else some (inst ++ s)

/-- The `while url:` pagination loop.  `server u` is the per-attempt outcome
oracle for URL `u`; `acc` the events accumulated so far; `fuel` bounds the
number of iterations, and running out of fuel is the distinguished error
standing for non-termination. -/
def fetchLoop (server : Str → Nat → GetOutcome) (inst : Str) :
    Nat → Str → List EventOut → Except Err (List EventOut)
  | 0, _, _ => .error .fuel
  | fuel + 1, url, acc =>
    match getPage (server url) with
    | .error e => .error e
    | .ok page =>
      match normalizeAll page.records with
      | .error e => .error e
      | .ok evs =>
        match resolveNext inst page.nextRecordsUrl with
        | none => .ok (acc ++ evs)
        | some u => fetchLoop server inst fuel u (acc ++ evs)

/-- The SOQL query string of the handler. -/
def soql : Str :=
  ("SELECT Id, Subject, OwnerId, WhatId, AccountId, Appointment_Status__c, " ++
   "StartDateTime, EndDateTime, Description, CreatedById, LastModifiedById, " ++
   "Owner.Name, What.Name, Account.Name, CreatedBy.Name, " ++
   "LastModifiedBy.Name FROM Event").toList

/-- The initial query URL built from the instance URL. -/
def initialUrl (inst : Str) : Str :=
  inst ++ "/services/data/v59.0/query?q=".toList ++ soql

/-- The literal placeholder body returned when no events were fetched. -/
def PLACEHOLDER : Str := "| id | subject | ... |\n|---|---|...|".toList

/-- An HTTP response of the service. -/
structure Response where
  status : Nat
  body : Str
deriving DecidableEq

/-- The `/events` handler after a successful token exchange: run the
pagination loop from the initial query URL; any raised error is caught by
`except Exception` and surfaced as a generic 500; an empty result returns
the literal placeholder; otherwise the local renderer's table. -/
def get_events (server : Str → Nat → GetOutcome) (inst : Str) (fuel : Nat) :
    Response :=
  match fetchLoop server inst fuel (initialUrl inst) [] with
  | .error _ => { status := 500, body := "Failed to fetch events".toList }
  | .ok events =>
    if events = [] then { status := 200, body := PLACEHOLDER }
    else { status := 200, body := build_markdown_local events }

/-- The chain hypothesis of pagination completeness: from URL `u`, the
server answers each page of `pages` with status 200 on the first attempt;
every page but the last carries a non-empty continuation cursor leading (by
the handler's resolution rule) to the next page's URL, and the last page
carries none. -/
def chain (server : Str → Nat → GetOutcome) (inst : Str) :
    Str → List Page → Prop
  | _, [] => False
  | u, p :: rest =>
    (∃ b, server u 0 = .resp { status := 200, body := b, page := p }) ∧
    match rest with
    | [] => p.nextRecordsUrl = none
    | _ :: _ =>
      ∃ c, p.nextRecordsUrl = some c ∧ c ≠ [] ∧ chain server inst (inst ++ c) rest

/-! ### Concrete fixtures used by witnesses and counterexamples -/

/-- A remote record whose five related-object slots exercise the absent,
null and name-less-object cases. -/
def recC7 : RemoteRecord :=
  { Id? := some "E1".toList, Owner := .null, What := .missing,
    Account := .obj none, CreatedBy := .obj (some "Alice".toList),
    LastModifiedBy := .null }

/-- A remote record whose `Id` value is the empty string. -/
def recEmptyId : RemoteRecord := { Id? := some [] }

/-- The event the handler constructs from `recEmptyId`. -/
def evEmptyId : EventOut := { id := [] }

/-- A page with one well-formed record, one record missing its `Id` key,
and one more well-formed record. -/
def pageC8 : Page :=
  { records := [{ Id? := some ['a'] }, { Id? := none }, { Id? := some ['b'] }] }

/-- A server answering every URL with `pageC8` at status 200. -/
def serverC8 : Str → Nat → GetOutcome :=
  fun _ _ => .resp { status := 200, body := [], page := pageC8 }

/-- First page of the two-page pagination fixture: one record and a
root-relative continuation cursor. -/
def pageA : Page :=
  { records := [{ Id? := some ['a'] }], nextRecordsUrl := some "/n".toList }

/-- Second page of the two-page pagination fixture: two records, no cursor. -/
def pageB : Page :=
  { records := [{ Id? := some ['b'] }, { Id? := some ['c'] }] }

/-- A server returning `pageA` at the starting URL `U` and `pageB`
elsewhere (in particular at the resolved cursor URL `I/n`). -/
def serverC1 : Str → Nat → GetOutcome := fun u _ =>
  if u = ['U'] then .resp { status := 200, body := [], page := pageA }
  else .resp { status := 200, body := [], page := pageB }

/-- A page carrying a single record, served after 503 failures. -/
def pageC3 : Page := { records := [{ Id? := some ['x'] }] }

/-- Per-attempt outcomes failing with 503 on the first three attempts and
succeeding on the fourth. -/
def attempts503x3 : Nat → GetOutcome := fun i =>
  if i < 3 then .resp { status := 503, body := ['e'] }
  else .resp { status := 200, body := [], page := pageC3 }

/-- Per-attempt outcomes failing with 503 on the first two attempts and
succeeding on the third. -/
def attempts503x2 : Nat → GetOutcome := fun i =>
  if i < 2 then .resp { status := 503, body := ['e'] }
  else .resp { status := 200, body := [], page := pageC3 }

/-- Per-attempt outcomes failing with 503 on every attempt. -/
def attempts503 : Nat → GetOutcome :=
  fun _ => .resp { status := 503, body := ['e'] }

/-- Per-attempt outcomes answering 400 with a diagnostic body, at once. -/
def attempts400 : Nat → GetOutcome :=
  fun _ => .resp { status := 400, body := "Bad request detail".toList }

/-- A server answering every URL with the 400 response. -/
def serverC4 : Str → Nat → GetOutcome := fun _ => attempts400

/-- A server answering every URL with an empty page (no records, no
cursor). -/
def serverEmpty : Str → Nat → GetOutcome :=
  fun _ _ => .resp { status := 200, body := [], page := {} }

/-- A generative backend that always raises a capacity error. -/
def backendC5 : Nat → Str → Except Str Str :=
  fun _ _ => .error "watsonx error: invalid_instance_status_error".toList

/-- A small event used by the generative-fallback witness. -/
def evC5 : EventOut := { id := "E1".toList, subject := some "Call".toList }

/-- An event whose description holds a literal delimiter and a newline. -/
def evC6 : EventOut := { id := "E1".toList, description := some "a|b\nc".toList }

/-! ### Theorems -/

/-- Claim C9: applying the local rendering strategy to an empty list of
Event Records produces exactly the 16-column header row followed by the
separator row, with zero data rows, and does not error. -/
theorem empty_input_rendering :
    build_markdown_local [] =
      ("| id | subject | owner_id | owner_name | what_id | what_name | " ++
       "account_id | account_name | appointment_status_c | start_datetime | " ++
       "end_datetime | description | created_by_name | created_by_id | " ++
       "last_modified_by_name | last_modified_by_id |\n" ++
       "| --- | --- | --- | --- | --- | --- | --- | --- | --- | --- | --- | " ++
       "--- | --- | --- | --- | --- |").toList ∧
    mdLines [] = [headerLine, sepLine] := by
  constructor
  · decide
  · rfl

/-- Claim C2, counterexample: an absolute continuation cursor is not used
verbatim — the handler's `url = f"{inst}{nxt}" if nxt else None` prefixes
the instance URL onto every non-empty cursor, absolute ones included. -/
theorem cursor_resolution_counterexample :
    resolveNext "https://inst.example".toList
        (some "https://other.example/query2?x=1".toList) =
      some ("https://inst.examplehttps://other.example/query2?x=1".toList) ∧
    resolveNext "https://inst.example".toList
        (some "https://other.example/query2?x=1".toList) ≠
      some "https://other.example/query2?x=1".toList := by
  decide

/-- Claim C2 as amended: every non-empty continuation cursor — root-relative
or absolute — is resolved by prefixing it with the instance URL from the
Auth Session (so a root-relative cursor resolves correctly, while an
absolute cursor is not used verbatim), and an absent cursor ends the loop. -/
theorem cursor_resolution_amended (inst nxt : Str) (h : nxt ≠ []) :
    resolveNext inst (some nxt) = some (inst ++ nxt) ∧
    resolveNext inst none = none := by
  simp [resolveNext, h]

/-- Witness for the amended cursor resolution at a concrete root-relative
cursor. -/
theorem cursor_resolution_amended_witness :
    resolveNext "https://inst.example".toList (some "/query2?cursor=abc".toList) =
      some ("https://inst.example".toList ++ "/query2?cursor=abc".toList) ∧
    resolveNext "https://inst.example".toList none = none :=
  cursor_resolution_amended "https://inst.example".toList
    "/query2?cursor=abc".toList (by decide)

/-- Claim C7: for every remote record carrying its identifier,
normalization succeeds, and each of the five relationship name fields is
absent whenever the corresponding embedded sub-object is entirely absent,
explicitly null, or present without a `Name` attribute. -/
theorem name_resolution_tolerance (rec : RemoteRecord) (i : Str)
    (h : rec.Id? = some i) :
    ∃ ev, normalizeE rec = Except.ok ev ∧
      ((rec.Owner = SubVal.missing ∨ rec.Owner = SubVal.null ∨
          rec.Owner = SubVal.obj none) → ev.owner_name = none) ∧
      ((rec.What = SubVal.missing ∨ rec.What = SubVal.null ∨
          rec.What = SubVal.obj none) → ev.what_name = none) ∧
      ((rec.Account = SubVal.missing ∨ rec.Account = SubVal.null ∨
          rec.Account = SubVal.obj none) → ev.account_name = none) ∧
      ((rec.CreatedBy = SubVal.missing ∨ rec.CreatedBy = SubVal.null ∨
          rec.CreatedBy = SubVal.obj none) → ev.created_by_name = none) ∧
      ((rec.LastModifiedBy = SubVal.missing ∨ rec.LastModifiedBy = SubVal.null ∨
          rec.LastModifiedBy = SubVal.obj none) →
        ev.last_modified_by_name = none) := by
  have hok : normalizeE rec = Except.ok
      { id := i, subject := rec.Subject, owner_id := rec.OwnerId,
        owner_name := subName rec.Owner, what_id := rec.WhatId,
        what_name := subName rec.What, account_id := rec.AccountId,
        account_name := subName rec.Account,
        appointment_status_c := rec.Appointment_Status__c,
        start_datetime := rec.StartDateTime, end_datetime := rec.EndDateTime,
        description := rec.Description,
        created_by_name := subName rec.CreatedBy,
        created_by_id := rec.CreatedById,
        last_modified_by_name := subName rec.LastModifiedBy,
        last_modified_by_id := rec.LastModifiedById } := by
    unfold normalizeE
    rw [h]
  refine ⟨_, hok, ?_, ?_, ?_, ?_, ?_⟩ <;>
    rintro (h' | h' | h') <;> simp [h', subName]

/-- Witness for name-resolution tolerance at a record whose sub-objects are
respectively null, absent, a name-less object, a named object and null. -/
theorem name_resolution_tolerance_witness :
    ∃ ev, normalizeE recC7 = Except.ok ev ∧
      ((recC7.Owner = SubVal.missing ∨ recC7.Owner = SubVal.null ∨
          recC7.Owner = SubVal.obj none) → ev.owner_name = none) ∧
      ((recC7.What = SubVal.missing ∨ recC7.What = SubVal.null ∨
          recC7.What = SubVal.obj none) → ev.what_name = none) ∧
      ((recC7.Account = SubVal.missing ∨ recC7.Account = SubVal.null ∨
          recC7.Account = SubVal.obj none) → ev.account_name = none) ∧
      ((recC7.CreatedBy = SubVal.missing ∨ recC7.CreatedBy = SubVal.null ∨
          recC7.CreatedBy = SubVal.obj none) → ev.created_by_name = none) ∧
      ((recC7.LastModifiedBy = SubVal.missing ∨
          recC7.LastModifiedBy = SubVal.null ∨
          recC7.LastModifiedBy = SubVal.obj none) →
        ev.last_modified_by_name = none) :=
  name_resolution_tolerance recC7 "E1".toList rfl

/-- Claim C8, counterexample: a remote record whose `Id` value is the empty
string is normalized successfully into an Event Record whose `id` is empty —
the code never checks non-emptiness, only presence of the key. -/
theorem id_invariant_counterexample :
    normalizeE recEmptyId = Except.ok evEmptyId ∧ evEmptyId.id = [] := by
  decide

/-- Claim C8 as amended: every constructed Event Record's `id` is taken
verbatim from the remote record's `Id` field (hence may be empty when the
remote value is empty); a record lacking the `Id` key raises, and a page
containing such a record makes the whole request fail with the generic 500,
returning none of the records. -/
theorem id_invariant_amended :
    (∀ rec i, rec.Id? = some i →
      ∃ ev, normalizeE rec = Except.ok ev ∧ ev.id = i) ∧
    (∀ rec, rec.Id? = none → normalizeE rec = Except.error Err.keyErrorId) ∧
    (∀ server inst fuel pg e,
      getPage (server (initialUrl inst)) = Except.ok pg →
      normalizeAll pg.records = Except.error e →
      get_events server inst (fuel + 1) =
        { status := 500, body := "Failed to fetch events".toList }) := by
  refine ⟨?_, ?_, ?_⟩
  · intro rec i h
    unfold normalizeE
    rw [h]
    exact ⟨_, rfl, rfl⟩
  · intro rec h
    simp [normalizeE, h]
  · intro server inst fuel pg e h1 h2
    simp [get_events, fetchLoop, h1, h2]

/-- Witness for the amended identifier claim: a verbatim id, a raising
missing-id record, and a whole-request 500 on a page with a malformed
record. -/
theorem id_invariant_amended_witness :
    (∃ ev, normalizeE { Id? := some ['a'] } = Except.ok ev ∧ ev.id = ['a']) ∧
    normalizeE { Id? := none } = Except.error Err.keyErrorId ∧
    get_events serverC8 ['I'] 3 =
      { status := 500, body := "Failed to fetch events".toList } :=
  ⟨id_invariant_amended.1 { Id? := some ['a'] } ['a'] rfl,
   id_invariant_amended.2.1 { Id? := none } rfl,
   id_invariant_amended.2.2 serverC8 ['I'] 2 pageC8 Err.keyErrorId
     (by decide) (by decide)⟩

/-- Claim C10: when the paginated fetch completes with zero records the
handler returns HTTP 200 with the fixed three-column placeholder literal,
which differs from what `build_markdown_local` would produce on empty
input. -/
theorem empty_fetch_placeholder :
    (∀ server inst fuel,
      fetchLoop server inst fuel (initialUrl inst) [] = Except.ok [] →
      get_events server inst fuel = { status := 200, body := PLACEHOLDER }) ∧
    PLACEHOLDER ≠ build_markdown_local [] := by
  constructor
  · intro server inst fuel h
    simp [get_events, h]
  · decide

/-- Witness for the placeholder claim at a server returning one empty
page. -/
theorem empty_fetch_placeholder_witness :
    get_events serverEmpty ['I'] 1 = { status := 200, body := PLACEHOLDER } :=
  empty_fetch_placeholder.1 serverEmpty ['I'] 1 (by decide)

/-- Claim C3, counterexample: a page failing 503 on the first three attempts
is fetched a fourth time — urllib3's `Retry(total=3)` allows three retries
after the initial attempt — so the fetch succeeds rather than failing as
the claim's "at most 3 times total" predicts. -/
theorem retry_bound_counterexample :
    getPage attempts503x3 = Except.ok pageC3 := by
  decide

/-- Claim C3 as amended: each page fetch makes at most four attempts (one
initial plus three retries).  A page answering 503 twice then 200 succeeds
with the third attempt's page; a page answering 503 on all four attempts
raises `MaxRetryError`; and an erroring page fetch makes the whole loop
return that error, discarding every previously accumulated record. -/
theorem retry_bound_amended :
    (∀ (r : Nat → GetOutcome) (p pg0 pg1 : Page) (b b0 b1 : Str),
      r 0 = .resp { status := 503, body := b0, page := pg0 } →
      r 1 = .resp { status := 503, body := b1, page := pg1 } →
      r 2 = .resp { status := 200, body := b, page := p } →
      getPage r = Except.ok p) ∧
    (∀ r : Nat → GetOutcome,
      (∀ i, i ≤ 3 → ∃ b pg, r i = .resp { status := 503, body := b, page := pg }) →
      getPage r = Except.error Err.maxRetry) ∧
    (∀ server inst fuel url acc e,
      getPage (server url) = Except.error e →
      fetchLoop server inst (fuel + 1) url acc = Except.error e) := by
  refine ⟨?_, ?_, ?_⟩
  · intro r p pg0 pg1 b b0 b1 h0 h1 h2
    simp [getPage, sessGet, sessGetGo, h0, h1, h2, retryableStatus]
  · intro r h
    obtain ⟨b0, pg0, h0⟩ := h 0 (by omega)
    obtain ⟨b1, pg1, h1⟩ := h 1 (by omega)
    obtain ⟨b2, pg2, h2⟩ := h 2 (by omega)
    obtain ⟨b3, pg3, h3⟩ := h 3 (by omega)
    simp [getPage, sessGet, sessGetGo, h0, h1, h2, h3, retryableStatus]
  · intro server inst fuel url acc e h
    simp [fetchLoop, h]

/-- Witness for the amended retry bound: two 503s then success yields the
page, and constant 503 exhausts the retry budget. -/
theorem retry_bound_amended_witness :
    getPage attempts503x2 = Except.ok pageC3 ∧
    getPage attempts503 = Except.error Err.maxRetry :=
  ⟨retry_bound_amended.1 attempts503x2 pageC3 {} {} [] ['e'] ['e']
      (by decide) (by decide) (by decide),
   retry_bound_amended.2.1 attempts503 (fun i _ => ⟨['e'], {}, rfl⟩)⟩

/-- Claim C4, counterexample: a page fetch answered 400 with a diagnostic
body makes the handler return the generic internal error — status 500 and
body "Failed to fetch events" — rather than passing the remote status and
body through. -/
theorem upstream_error_passthrough_counterexample :
    get_events serverC4 ['I'] 5 =
      { status := 500, body := "Failed to fetch events".toList } ∧
    "Failed to fetch events".toList ≠ "Bad request detail".toList ∧
    (500 : Nat) ≠ 400 := by
  refine ⟨by decide, by decide, by decide⟩

/-- Claim C4 as amended: a non-retryable failure status (outside the
forcelist, 400 or above) fails on the very first attempt — the result holds
for every outcome of the later attempts, so no retry happens — but what the
caller sees is the handler's generic 500 "Failed to fetch events"; the
remote status and body are not propagated. -/
theorem upstream_error_amended :
    (∀ (r : Nat → GetOutcome) (s : Nat) (b : Str) (pg : Page),
      r 0 = .resp { status := s, body := b, page := pg } →
      retryableStatus s = false → 400 ≤ s →
      getPage r = Except.error (Err.http s b)) ∧
    (∀ server inst fuel e,
      getPage (server (initialUrl inst)) = Except.error e →
      get_events server inst (fuel + 1) =
        { status := 500, body := "Failed to fetch events".toList }) := by
  constructor
  · intro r s b pg h0 hnr hs
    simp [getPage, sessGet, sessGetGo, h0, hnr, hs]
  · intro server inst fuel e h
    simp [get_events, fetchLoop, h]

/-- Witness for the amended upstream-error claim at a 400 response. -/
theorem upstream_error_amended_witness :
    getPage attempts400 =
      Except.error (Err.http 400 "Bad request detail".toList) ∧
    get_events serverC4 ['J'] 4 =
      { status := 500, body := "Failed to fetch events".toList } :=
  ⟨upstream_error_amended.1 attempts400 400 "Bad request detail".toList {}
      rfl (by decide) (by decide),
   upstream_error_amended.2 serverC4 ['J'] 3
      (Err.http 400 "Bad request detail".toList) (by decide)⟩


/-- Claim C5: for every non-empty Event Record sequence, when the
generative backend raises an error whose message contains a recognized
capacity/quota/inactive marker on every call, the renderer's output is
byte-identical to calling that revision's local strategy directly on the
same input (the token-ceiling branch also returns exactly the local
strategy's output, so the equality holds on both paths). -/
theorem generative_fallback_correct (backend : Nat → Str → Except Str Str)
    (events : List EventOut) (hne : events ≠ [])
    (hb : ∀ i p, ∃ m, backend i p = Except.error m ∧ hasCapacityMarker m = true) :
    generate_markdown_with_watsonx backend events =
      Except.ok (build_markdown_local_v1 events) := by
  have hK : batchStarts events.length ≠ [] := by
    have hp : 0 < events.length := List.length_pos.mpr hne
    have hq : 0 < (events.length + 999) / 1000 := by omega
    simp only [batchStarts, ne_eq, List.map_eq_nil_iff, List.range_eq_nil]
    omega
  rcases hbs : batchStarts events.length with _ | ⟨i, rest⟩
  · exact absurd hbs hK
  · unfold generate_markdown_with_watsonx
    rw [hbs, genIter]
    by_cases hest : 8192 < estimate_tokens (mkPrompt ((events.drop i).take 1000))
    · rw [if_pos hest]
    · rw [if_neg hest]
      obtain ⟨m, hm, hmark⟩ := hb (i / 1000) (mkPrompt ((events.drop i).take 1000))
      rw [hm]
      simp [hmark]

/-- Witness for the generative fallback at a one-event input and a backend
that always raises the inactive-instance error. -/
theorem generative_fallback_correct_witness :
    generate_markdown_with_watsonx backendC5 [evC5] =
      Except.ok (build_markdown_local_v1 [evC5]) :=
  generative_fallback_correct backendC5 [evC5] (by decide)
    (fun i p => ⟨"watsonx error: invalid_instance_status_error".toList,
      rfl, by decide⟩)

/-- A URL whose first attempt answers 200 with page `p` is fetched in one
attempt: the retried GET returns that response and `raise_for_status` lets
it through. -/
theorem getPage_ok200 (r : Nat → GetOutcome) (b : Str) (p : Page)
    (h : r 0 = .resp { status := 200, body := b, page := p }) :
    getPage r = Except.ok p := by
  simp [getPage, sessGet, sessGetGo, h, retryableStatus]

/-- Normalization distributes over concatenation of record lists: it fails
like the first failing half, and otherwise produces the two halves'
normalizations concatenated. -/
theorem normalizeAll_append (a b : List RemoteRecord) :
    normalizeAll (a ++ b) =
      match normalizeAll a with
      | .error e => .error e
      | .ok xs =>
        match normalizeAll b with
        | .error e => .error e
        | .ok ys => .ok (xs ++ ys) := by
  induction a with
  | nil =>
    simp only [List.nil_append, normalizeAll]
    cases normalizeAll b <;> simp
  | cons r rs ih =>
    cases hr : normalizeE r with
    | error e => simp [normalizeAll, hr]
    | ok ev =>
      simp only [List.cons_append, List.append_eq, normalizeAll, hr]
      rw [ih]
      cases hrs : normalizeAll rs <;> cases hb2 : normalizeAll b <;> simp

/-- The pagination loop along a chained page sequence, with the accumulator
generalized: with fuel equal to the number of pages, the loop returns the
accumulator followed by the normalization of the concatenated records, or
the first normalization error. -/
theorem fetchLoop_chain (server : Str → Nat → GetOutcome) (inst : Str) :
    ∀ (pages : List Page) (u : Str) (acc : List EventOut),
      chain server inst u pages →
      fetchLoop server inst pages.length u acc =
        match normalizeAll ((pages.map Page.records).flatten) with
        | .error e => .error e
        | .ok evs => .ok (acc ++ evs) := by
  intro pages
  induction pages with
  | nil =>
    intro u acc h
    exact h.elim
  | cons p rest ih =>
    intro u acc h
    obtain ⟨⟨b, hsrv⟩, hrest⟩ := h
    have hget : getPage (server u) = Except.ok p := getPage_ok200 (server u) b p hsrv
    cases rest with
    | nil =>
      simp only [List.length_cons, List.length_nil, List.map_cons,
        List.map_nil, List.flatten]
      rw [fetchLoop]
      rw [hget]
      cases hn : normalizeAll p.records with
      | error e => simp [hn, normalizeAll_append]
      | ok evs => simp [hn, hrest, resolveNext, normalizeAll_append]
    | cons q rest2 =>
      obtain ⟨c, hnext, hcne, hchain⟩ := hrest
      have hres : resolveNext inst p.nextRecordsUrl = some (inst ++ c) := by
        simp [resolveNext, hnext, hcne]
      simp only [List.length_cons]
      rw [fetchLoop]
      cases hn : normalizeAll p.records with
      | error e =>
        simp only [hget, hn, List.map_cons, List.flatten, normalizeAll_append]
      | ok evs =>
        simp only [hget, hn, hres]
        have ihc := ih (inst ++ c) (acc ++ evs) hchain
        simp only [List.length_cons] at ihc
        rw [ihc]
        simp only [List.map_cons, List.flatten, normalizeAll_append, hn]
        cases hq : normalizeAll q.records <;>
          cases hr2 : normalizeAll ((List.map Page.records rest2).flatten) <;>
            simp [List.append_assoc]

/-- Claim C1: along any chained sequence of pages — every page but the last
carrying a continuation cursor, the last carrying none — the fetch loop of
the handler returns exactly the normalization, in order, of the
concatenation of every page's records: page order and within-page order are
preserved and no record is dropped or duplicated. -/
theorem pagination_completeness (server : Str → Nat → GetOutcome)
    (inst u : Str) (pages : List Page) (h : chain server inst u pages) :
    fetchLoop server inst pages.length u [] =
      normalizeAll ((pages.map Page.records).flatten) := by
  rw [fetchLoop_chain server inst pages u [] h]
  cases normalizeAll ((pages.map Page.records).flatten) <;> simp

/-- Witness for pagination completeness over a concrete two-page chain,
with the resulting three records spelled out. -/
theorem pagination_completeness_witness :
    fetchLoop serverC1 ['I'] 2 ['U'] [] =
      normalizeAll (([pageA, pageB].map Page.records).flatten) ∧
    normalizeAll (([pageA, pageB].map Page.records).flatten) =
      Except.ok [{ id := ['a'] }, { id := ['b'] }, { id := ['c'] }] := by
  constructor
  · exact pagination_completeness serverC1 ['I'] ['U'] [pageA, pageB]
      ⟨⟨[], by decide⟩, ['/', 'n'], by decide, by decide,
       ⟨[], by decide⟩, by decide⟩
  · decide

/-- The pipe-escaped form of a string never starts with the delimiter:
every emitted `|` is immediately preceded by the inserted backslash. -/
theorem escPipe_head_ne (s : Str) (c : Char) (rest : Str)
    (h : escPipe s = c :: rest) : c ≠ '|' := by
  cases s with
  | nil => simp [escPipe] at h
  | cons a t =>
    rw [escPipe] at h
    split at h
    · injection h with h1 h2
      rw [← h1]
      decide
    · rename_i ha
      injection h with h1 h2
      rw [← h1]
      exact ha

/-- Unescaping the delimiter escape recovers the original string exactly:
the escape inserts a backslash before each delimiter, and the unescape
removes precisely those inserted backslashes. -/
theorem unescape_escPipe (s : Str) : unescapeDelim (escPipe s) = s := by
  induction s with
  | nil => rfl
  | cons c cs ih =>
    by_cases hc : c = '|'
    · subst hc
      rw [escPipe, if_pos rfl]
      have hstep : unescapeDelim ('\\' :: '|' :: escPipe cs) =
          '|' :: unescapeDelim (escPipe cs) := by
        rw [unescapeDelim, if_pos ⟨rfl, rfl⟩]
      rw [hstep, ih]
    · rw [escPipe, if_neg hc]
      cases hesc : escPipe cs with
      | nil =>
        have hcs : cs = [] := by
          cases cs with
          | nil => rfl
          | cons d t => by_cases hd : d = '|' <;> simp [escPipe, hd] at hesc
        subst hcs
        simp [unescapeDelim]
      | cons d ds =>
        have hd : d ≠ '|' := escPipe_head_ne cs d ds hesc
        rw [unescapeDelim, if_neg (fun hab => hd hab.2), ← hesc, ih]

/-- Character counts add over concatenation. -/
theorem countChar_append (a : Char) (x y : Str) :
    countChar a (x ++ y) = countChar a x + countChar a y := by
  induction x with
  | nil => simp [countChar]
  | cons c cs ih => simp [countChar, ih]; omega

/-- Newline replacement leaves no newline behind. -/
theorem countChar_nl_escNl (s : Str) : countChar '\n' (escNl s) = 0 := by
  induction s with
  | nil => rfl
  | cons c cs ih =>
    by_cases hc : c = '\n' <;> simp [escNl, countChar, hc, ih]

/-- A join of parts free of a character, with a separator free of it, is
free of it. -/
theorem countChar_pyJoin (a : Char) (sep : Str) (hsep : countChar a sep = 0) :
    ∀ parts : List Str, (∀ x ∈ parts, countChar a x = 0) →
      countChar a (pyJoin sep parts) = 0 := by
  intro parts
  induction parts with
  | nil => intro h; rfl
  | cons x xs ih =>
    intro h
    cases xs with
    | nil => exact h x (by simp)
    | cons y ys =>
      rw [pyJoin, countChar_append, countChar_append]
      · rw [h x (by simp), hsep, ih (fun z hz => h z (by simp [hz]))]
      · simp

/-- A data row of the renderer contains no newline: every cell has been
escaped and the fixed delimiters contain none. -/
theorem countChar_nl_mdRow (e : EventOut) :
    countChar '\n' (mdRow (eventCells e)) = 0 := by
  have hcells : ∀ x ∈ eventCells e, countChar '\n' x = 0 := by
    intro x hx
    simp only [eventCells, List.mem_cons, List.not_mem_nil, or_false] at hx
    rcases hx with rfl | rfl | rfl | rfl | rfl | rfl | rfl | rfl | rfl | rfl |
      rfl | rfl | rfl | rfl | rfl | rfl <;> exact countChar_nl_escNl _
  rw [mdRow, countChar_append, countChar_append]
  rw [countChar_pyJoin '\n' " | ".toList (by decide) (eventCells e) hcells]
  decide

/-- Escaping a string containing the delimiter puts the two-character
escaped delimiter into the pipe-escaped form. -/
theorem containsSub_escPipe (s : Str) (h : '|' ∈ s) :
    containsSub ['\\', '|'] (escPipe s) = true := by
  induction s with
  | nil => simp at h
  | cons c cs ih =>
    by_cases hc : c = '|'
    · subst hc
      rw [escPipe, if_pos rfl, containsSub]
      simp [List.isPrefixOf]
    · rw [escPipe, if_neg hc]
      have hmem : '|' ∈ cs := by
        rcases List.mem_cons.mp h with h1 | h1
        · exact absurd h1.symm hc
        · exact h1
      rw [containsSub, ih hmem, Bool.or_true]

/-- The two-character prefix test decomposed. -/
theorem isPrefixOf_pair (c : Char) (cs : Str)
    (h : List.isPrefixOf ['\\', '|'] (c :: cs) = true) :
    c = '\\' ∧ ∃ t, cs = '|' :: t := by
  cases cs with
  | nil => simp [List.isPrefixOf] at h
  | cons d t =>
    simp only [List.isPrefixOf, Bool.and_eq_true, beq_iff_eq] at h
    exact ⟨h.1.symm, t, by rw [← h.2.1]⟩

/-- Newline replacement preserves the presence of the escaped delimiter:
neither of its two characters is a newline. -/
theorem containsSub_escNl (l : Str)
    (h : containsSub ['\\', '|'] l = true) :
    containsSub ['\\', '|'] (escNl l) = true := by
  induction l with
  | nil => simp [containsSub, List.isPrefixOf] at h
  | cons c cs ih =>
    rw [containsSub, Bool.or_eq_true] at h
    rcases h with h | h
    · obtain ⟨hc, t, ht⟩ := isPrefixOf_pair c cs h
      subst hc
      subst ht
      rw [escNl]
      rw [escNl]
      simp only [containsSub]
      simp [List.isPrefixOf]
    · rw [escNl, containsSub, ih h, Bool.or_true]

/-- Claim C6: a record whose description holds a literal delimiter and an
embedded newline renders as exactly one data row — the whole table for that
one record has exactly two newlines, hence three physical lines, namely the
header, the separator and the single data row — with every delimiter in the
value escaped by a backslash (the two-character escape occurs in the cell,
which itself contains no newline), and unescaping the escape recovers the
original string, delimiter included. -/
theorem local_escape_roundtrip (e : EventOut) (s : Str)
    (hdesc : e.description = some s) (hp : '|' ∈ s) (_hnl : '\n' ∈ s) :
    countChar '\n' (build_markdown_local [e]) = 2 ∧
    mdLines [e] = [headerLine, sepLine, mdRow (eventCells e)] ∧
    escapeCell s ∈ eventCells e ∧
    containsSub ['\\', '|'] (escapeCell s) = true ∧
    countChar '\n' (escapeCell s) = 0 ∧
    unescapeDelim (escPipe s) = s := by
  refine ⟨?_, rfl, ?_, ?_, countChar_nl_escNl _, unescape_escPipe s⟩
  · have hh : countChar '\n' headerLine = 0 := by decide
    have hs : countChar '\n' sepLine = 0 := by decide
    have hr : countChar '\n' (mdRow (eventCells e)) = 0 := countChar_nl_mdRow e
    simp only [build_markdown_local, mdLines, List.map_cons, List.map_nil,
      pyJoin, countChar_append, hh, hs, hr]
    decide
  · simp [eventCells, pyOr, hdesc]
  · exact containsSub_escNl _ (containsSub_escPipe s hp)

/-- Witness for the escaping claim at a record whose description is
`a|b` followed by a newline and `c`. -/
theorem local_escape_roundtrip_witness :
    countChar '\n' (build_markdown_local [evC6]) = 2 ∧
    mdLines [evC6] = [headerLine, sepLine, mdRow (eventCells evC6)] ∧
    escapeCell "a|b\nc".toList ∈ eventCells evC6 ∧
    containsSub ['\\', '|'] (escapeCell "a|b\nc".toList) = true ∧
    countChar '\n' (escapeCell "a|b\nc".toList) = 0 ∧
    unescapeDelim (escPipe "a|b\nc".toList) = "a|b\nc".toList :=
  local_escape_roundtrip evC6 "a|b\nc".toList rfl (by decide) (by decide)
